import Mathlib

/-!
# Shallow embedding of the `code-evaluator` frontend core

This file embeds, in Lean 4, the client-side logic of the `code-evaluator`
repository that the specification documents: the challenge-configuration
modal state machine (`src/frontend/app/configuration/page.tsx`), the
polling hook (`src/frontend/utils/hooks.ts`), the i18n resolution
(`src/frontend/i18n/I18nProvider.tsx`), the rank page
(`src/frontend/app/rank/page.tsx`), the API client with its
`Accept-Language` interceptor, and the error paths of the various
handlers.  React `useState` cells are collected into explicit state
records; each event handler becomes a state-transition function; an
`async` handler that awaits an API call is split into the transition
applied on success (parameterised by the response) and the transition
applied on failure.
-/

namespace CodeEvaluator

/-! ## Data model (`src/frontend/types`) -/

/-- Definition `EvaluationState` from `types/evaluation.ts`. -/
inductive EvaluationState where
  | not_evaluated
  | under_evaluation
  | evaluated
deriving DecidableEq, Repr

/-- Definition `Criteria` from `types/challenge.ts`.  The numeric `score_multiplier`
is modelled as an integer; no arithmetic is ever performed on it by the
embedded code. -/
structure Criteria where
  id : String
  challenge_id : String
  name : String
  description : String
  score_multiplier : Int
  code_concept : String
deriving DecidableEq, Repr

/-- Definition `Challenge` from `types/challenge.ts`. -/
structure Challenge where
  id : String
  name : String
  description : String
  expected_outcome : String
  created_at : String
  criteria : List Criteria
  active : Bool
deriving DecidableEq, Repr

/-- Definition `Repository` from `types/repository.ts`. -/
structure Repository where
  id : String
  challenge_id : String
  name : String
  url : String
  created_at : String
deriving DecidableEq, Repr

/-- Definition `EvaluationDetail` from `types/evaluation.ts`. -/
structure EvaluationDetail where
  id : String
  challenge_id : String
  repository_id : String
  criteria_id : String
  criteria_name : String
  score : Option Int
  state : EvaluationState
  reasoning : Option String
  suggestion : Option String
  updated_at : String
deriving DecidableEq, Repr

/-- Definition `RankEntry` from `types/evaluation.ts`. -/
structure RankEntry where
  repository_id : String
  repository_name : String
  repository_url : String
  total_score : Option Int
  status : EvaluationState
  unscored : Bool
deriving DecidableEq, Repr

/-- Definition `RankResponse` from `types/evaluation.ts`. -/
structure RankResponse where
  challenge_id : String
  entries : List RankEntry
  generated_at : String
deriving DecidableEq, Repr

/-! ## Configuration page (`app/configuration/page.tsx`) -/

/-- Definition `CriterionDraft` from `configuration/page.tsx`. -/
structure CriterionDraft where
  name : String
  description : String
  score_multiplier : Int
  code_concept : String
deriving DecidableEq, Repr

/-- Definition `ChallengeFormState` from `configuration/page.tsx`. -/
structure ChallengeFormState where
  name : String
  description : String
  expected_outcome : String
  criteria : List CriterionDraft
  active : Bool
deriving DecidableEq, Repr

/-- JavaScript `String.prototype.trim`: strip leading and trailing
whitespace. -/
def jsTrim (s : String) : String :=
  String.mk ((s.data.dropWhile Char.isWhitespace).reverse.dropWhile Char.isWhitespace).reverse

/-- JavaScript `String.prototype.split` with a single-character
separator, on character lists: `"".split(sep)` is `[""]`, and every
separator occurrence starts a new field. -/
def jsSplitCharsOn (sep : Char) : List Char → List Char → List String
  | [], acc => [String.mk acc.reverse]
  | c :: rest, acc =>
    if c = sep then String.mk acc.reverse :: jsSplitCharsOn sep rest []
    else jsSplitCharsOn sep rest (c :: acc)

/-- JavaScript `key.split(".")`. -/
def jsSplitOnDot (s : String) : List String :=
  jsSplitCharsOn (Char.ofNat 46) s.data []

/-- Definition `createEmptyCriterion` from `configuration/page.tsx`. -/
def createEmptyCriterion : CriterionDraft :=
  { name := "", description := "", score_multiplier := 1, code_concept := "" }

/-- The initial value of the `challengeForm` state cell, also produced by
`resetChallengeForm`. -/
def emptyChallengeForm : ChallengeFormState :=
  { name := "", description := "", expected_outcome := "", criteria := [], active := true }

/-- The `useState` cells of `ConfigurationPage`, collected into one record. -/
structure ConfigState where
  challenges : List Challenge
  isChallengeModalOpen : Bool
  isCriteriaModalOpen : Bool
  selectedChallenge : Option Challenge
  criteriaDraft : CriterionDraft
  challengeForm : ChallengeFormState
  loading : Bool
  togglingChallengeId : Option String
  isDraftCriteriaModalOpen : Bool
  draftCriteriaIndex : Option Nat
  draftCriteriaForm : CriterionDraft
  shouldResumeChallengeModal : Bool
deriving DecidableEq, Repr

/-- The initial state of `ConfigurationPage` (the `useState` initial values). -/
def initConfigState : ConfigState :=
  { challenges := []
    isChallengeModalOpen := false
    isCriteriaModalOpen := false
    selectedChallenge := none
    criteriaDraft := createEmptyCriterion
    challengeForm := emptyChallengeForm
    loading := false
    togglingChallengeId := none
    isDraftCriteriaModalOpen := false
    draftCriteriaIndex := none
    draftCriteriaForm := createEmptyCriterion
    shouldResumeChallengeModal := false }

/-- Definition `openDraftModalWithState` from `configuration/page.tsx`: records whether
the challenge modal is currently open in `shouldResumeChallengeModal`,
hides the challenge modal if so, and opens the draft-criterion editor. -/
def openDraftModalWithState (nextIndex : Option Nat) (nextForm : CriterionDraft)
    (s : ConfigState) : ConfigState :=
  let shouldResume := s.isChallengeModalOpen
  { s with
    draftCriteriaIndex := nextIndex
    draftCriteriaForm := nextForm
    shouldResumeChallengeModal := shouldResume
    isChallengeModalOpen := if shouldResume then false else s.isChallengeModalOpen
    isDraftCriteriaModalOpen := true }

/-- Definition `openNewDraftCriterion` from `configuration/page.tsx`. -/
def openNewDraftCriterion (s : ConfigState) : ConfigState :=
  openDraftModalWithState none createEmptyCriterion s

/-- Definition `openDraftCriterion` from `configuration/page.tsx`.  The source reads
`{ ...challengeForm.criteria[index] }`; the page only invokes it with an
index of an existing entry, and out-of-range access is totalised with the
empty criterion. -/
def openDraftCriterion (index : Nat) (s : ConfigState) : ConfigState :=
  openDraftModalWithState (some index)
    ((s.challengeForm.criteria.get? index).getD createEmptyCriterion) s

/-- Definition `closeDraftCriteriaModal` from `configuration/page.tsx`: closes the
draft editor, clears the draft index and form, and re-opens the challenge
modal exactly when `shouldResumeChallengeModal` was set. -/
def closeDraftCriteriaModal (s : ConfigState) : ConfigState :=
  let s1 := { s with
    isDraftCriteriaModalOpen := false
    draftCriteriaIndex := none
    draftCriteriaForm := createEmptyCriterion }
  if s.shouldResumeChallengeModal then
    { s1 with isChallengeModalOpen := true, shouldResumeChallengeModal := false }
  else s1

/-- Definition `handleSaveDraftCriterion` from `configuration/page.tsx`: a blank
(trimmed-empty) draft name aborts without any state change; otherwise the
draft is appended (`draftCriteriaIndex = none`) or written at its index,
and the draft editor is closed. -/
def handleSaveDraftCriterion (s : ConfigState) : ConfigState :=
  if jsTrim s.draftCriteriaForm.name = "" then s
  else
    let nextCriteria :=
      match s.draftCriteriaIndex with
      | none => s.challengeForm.criteria ++ [s.draftCriteriaForm]
      | some i => s.challengeForm.criteria.set i s.draftCriteriaForm
    closeDraftCriteriaModal
      { s with challengeForm := { s.challengeForm with criteria := nextCriteria } }

/-- Definition `removeDraftCriterionAtIndex` from `configuration/page.tsx`:
`criteria.filter((_, idx) => idx !== index)`. -/
def removeDraftCriterionAtIndex (index : Nat) (s : ConfigState) : ConfigState :=
  { s with challengeForm := { s.challengeForm with
      criteria := (s.challengeForm.criteria.enum.filter (fun p => p.1 ≠ index)).map Prod.snd } }

/-- Definition `handleDeleteDraftCriterion` from `configuration/page.tsx`. -/
def handleDeleteDraftCriterion (s : ConfigState) : ConfigState :=
  match s.draftCriteriaIndex with
  | none => closeDraftCriteriaModal s
  | some i => closeDraftCriteriaModal (removeDraftCriterionAtIndex i s)

/-- The operations of the draft-criterion editor named by the spec's
modal-state-machine property: the three ways of opening the editor and
the one way of closing it. -/
inductive DraftModalOp where
  | openWith (index : Option Nat) (form : CriterionDraft)
  | openNew
  | openExisting (index : Nat)
  | close

/-- Interpretation of a `DraftModalOp` as a state transition. -/
def applyDraftModalOp : DraftModalOp → ConfigState → ConfigState
  | .openWith i f, s => openDraftModalWithState i f s
  | .openNew, s => openNewDraftCriterion s
  | .openExisting i, s => openDraftCriterion i s
  | .close, s => closeDraftCriteriaModal s

/-- Run a sequence of draft-editor operations from a state. -/
def runDraftModalOps (s : ConfigState) (ops : List DraftModalOp) : ConfigState :=
  ops.foldl (fun st op => applyDraftModalOp op st) s

/-- Whether a `DraftModalOp` is one of the three opening operations. -/
def DraftModalOp.isOpenOp : DraftModalOp → Bool
  | .close => false
  | _ => true

/-- The payload `handleCreateChallenge` passes to `api.createChallenge`. -/
structure CreateChallengePayload where
  name : String
  description : String
  expected_outcome : String
  criteria : List CriterionDraft
  active : Bool
deriving DecidableEq, Repr

/-- The request side of `handleCreateChallenge` from
`configuration/page.tsx`: `none` when the guard
`!challengeForm.name.trim()` aborts the handler, otherwise the payload
sent to the create API, whose `criteria` are the form's criteria with the
trimmed-empty-named ones filtered out. -/
def handleCreateChallengeRequest (s : ConfigState) : Option CreateChallengePayload :=
  if jsTrim s.challengeForm.name = "" then none
  else some
    { name := s.challengeForm.name
      description := s.challengeForm.description
      expected_outcome := s.challengeForm.expected_outcome
      criteria := s.challengeForm.criteria.filter (fun c => ¬ jsTrim c.name = "")
      active := s.challengeForm.active }

/-- The state transition `handleCreateChallenge` performs when the create
API call succeeds with response `created`: append the response locally,
run `closeDraftCriteriaModal`, close the challenge modal, reset the form,
and (in the `finally` block) clear `loading`. -/
def handleCreateChallengeSuccess (created : Challenge) (s : ConfigState) : ConfigState :=
  if jsTrim s.challengeForm.name = "" then s
  else
    let s1 := { s with challenges := s.challenges ++ [created] }
    let s2 := closeDraftCriteriaModal s1
    { s2 with
      isChallengeModalOpen := false
      challengeForm := emptyChallengeForm
      loading := false }

/-- The state transition `handleCreateChallenge` performs when the create
API call fails: the `catch` block only logs, the `finally` block clears
`loading`. -/
def handleCreateChallengeFailure (s : ConfigState) : ConfigState :=
  if jsTrim s.challengeForm.name = "" then s
  else { s with loading := false }

/-- The state transition of the mount effect of `ConfigurationPage` when
`api.listChallenges` succeeds. -/
def configListChallengesSuccess (data : List Challenge) (s : ConfigState) : ConfigState :=
  { s with challenges := data }

/-- The state transition of the mount effect of `ConfigurationPage` when
`api.listChallenges` fails: the `catch` only logs. -/
def configListChallengesFailure (s : ConfigState) : ConfigState := s

/-- The state transition `handleToggleChallengeActive` performs when
`api.updateChallenge` succeeds with response `updated`: every list entry
whose `id` equals the toggled challenge's `id` gets its `active` field
replaced by `updated.active`; the `finally` block clears
`togglingChallengeId`. -/
def handleToggleChallengeActiveSuccess (challenge updated : Challenge)
    (s : ConfigState) : ConfigState :=
  { s with
    challenges := s.challenges.map (fun item =>
      if item.id = challenge.id then { item with active := updated.active } else item)
    togglingChallengeId := none }

/-- The state transition `handleToggleChallengeActive` performs when
`api.updateChallenge` fails: the `catch` only logs, the `finally` block
clears `togglingChallengeId`. -/
def handleToggleChallengeActiveFailure (s : ConfigState) : ConfigState :=
  { s with togglingChallengeId := none }

/-- The state transition `handleAddCriteria` performs when
`api.addCriteria` succeeds with response `created`. -/
def handleAddCriteriaSuccess (created : Criteria) (s : ConfigState) : ConfigState :=
  match s.selectedChallenge with
  | none => s
  | some sel =>
    if jsTrim s.criteriaDraft.name = "" then s
    else
      { s with
        challenges := s.challenges.map (fun challenge =>
          if challenge.id = sel.id then
            { challenge with criteria := challenge.criteria ++ [created] }
          else challenge)
        isCriteriaModalOpen := false
        loading := false }

/-- The state transition `handleAddCriteria` performs when
`api.addCriteria` fails. -/
def handleAddCriteriaFailure (s : ConfigState) : ConfigState :=
  match s.selectedChallenge with
  | none => s
  | some _ =>
    if jsTrim s.criteriaDraft.name = "" then s
    else { s with loading := false }

/-! ## Home page (`app/page.tsx`) -/

/-- The `useState` cells of `HomePage`. -/
structure HomeState where
  challenges : List Challenge
  selectedId : String
  isLoading : Bool
  error : Option String
deriving DecidableEq, Repr

/-- The generic user-facing message set by the home page when loading the
challenge list fails. -/
def homeGenericErrorMessage : String :=
  "Unable to load challenges. Please try again later."

/-- The state transition of `fetchChallenges` in `app/page.tsx` when
`api.listChallenges` succeeds. -/
def fetchChallengesSuccess (data : List Challenge) (s : HomeState) : HomeState :=
  { s with
    challenges := data
    selectedId :=
      if data ≠ [] ∧ s.selectedId = "" then ((data.head?.map Challenge.id).getD s.selectedId)
      else s.selectedId
    isLoading := false }

/-- The state transition of `fetchChallenges` in `app/page.tsx` when
`api.listChallenges` fails: log, set the generic error message, and (in
the `finally` block) clear `isLoading`. -/
def fetchChallengesFailure (s : HomeState) : HomeState :=
  { s with error := some homeGenericErrorMessage, isLoading := false }

/-! ## Rank page (`app/rank/page.tsx`) -/

/-- The `useState` cells of `RankPage`. -/
structure RankState where
  challenges : List Challenge
  selectedChallengeId : String
  rankEntries : List RankEntry
  isModalOpen : Bool
  selectedRepositoryId : String
  evaluationDetails : List EvaluationDetail
  isLoading : Bool
deriving DecidableEq, Repr

/-- The initial state of `RankPage`. -/
def initRankState : RankState :=
  { challenges := []
    selectedChallengeId := ""
    rankEntries := []
    isModalOpen := false
    selectedRepositoryId := ""
    evaluationDetails := []
    isLoading := false }

/-- The state transition of the mount effect of `RankPage` when
`api.listChallenges` succeeds: `queryParam` is `params.get("challengeId")`. -/
def rankListChallengesSuccess (data : List Challenge) (queryParam : Option String)
    (s : RankState) : RankState :=
  { s with
    challenges := data
    selectedChallengeId := queryParam.getD ((data.head?.map Challenge.id).getD "") }

/-- The state transition of the mount effect of `RankPage` when
`api.listChallenges` fails: the `catch` only logs. -/
def rankListChallengesFailure (s : RankState) : RankState := s

/-- The polling callback of `RankPage` when `api.getRanking` succeeds:
with no selected challenge it returns before fetching; otherwise the rank
entries are replaced wholesale by the response's entries. -/
def getRankingPollSuccess (resp : RankResponse) (s : RankState) : RankState :=
  if s.selectedChallengeId = "" then s
  else { s with rankEntries := resp.entries }

/-- The polling callback of `RankPage` when `api.getRanking` fails: the
`.catch` only logs. -/
def getRankingPollFailure (s : RankState) : RankState := s

/-- The synchronous head of `openEvaluationModal` in `app/rank/page.tsx`:
before awaiting the fetch it records the selected repository, opens the
modal, and sets the loading flag (no selected challenge aborts first). -/
def openEvaluationModalStart (repositoryId : String) (s : RankState) : RankState :=
  if s.selectedChallengeId = "" then s
  else { s with
    selectedRepositoryId := repositoryId
    isModalOpen := true
    isLoading := true }

/-- The continuation of `openEvaluationModal` once the
`api.getEvaluationHistory` promise settles: on success the detail list is
replaced by the response, on failure the `catch` only logs; either way the
`finally` block clears the loading flag. -/
def openEvaluationModalSettle (result : Except Unit (List EvaluationDetail))
    (s : RankState) : RankState :=
  match result with
  | .ok evaluations => { s with evaluationDetails := evaluations, isLoading := false }
  | .error _ => { s with isLoading := false }

/-- One full run of `openEvaluationModal`: the synchronous head followed
by the settling of its fetch (which only happens when the head did not
abort). -/
def openEvaluationModalRun (repositoryId : String)
    (result : Except Unit (List EvaluationDetail)) (s : RankState) : RankState :=
  if s.selectedChallengeId = "" then s
  else openEvaluationModalSettle result (openEvaluationModalStart repositoryId s)

/-- A sequence of repository selections in the detail modal, each fetch
completing successfully (with the given detail list) before the next
selection is made. -/
def runSelections (s : RankState) (sels : List (String × List EvaluationDetail)) : RankState :=
  sels.foldl (fun st p => openEvaluationModalRun p.1 (Except.ok p.2) st) s

/-! ## Repositories page (`app/configuration/[challengeId]/repositories/page.tsx`) -/

/-- Definition `RepositoryForm` from `types/repository.ts`. -/
structure RepositoryForm where
  name : String
  url : String
deriving DecidableEq, Repr

/-- The `useState` cells of `ChallengeRepositoriesPage`. -/
structure RepoPageState where
  challenge : Option Challenge
  repositories : List Repository
  isModalOpen : Bool
  repoForm : RepositoryForm
deriving DecidableEq, Repr

/-- The state transition of `loadData` in the repositories page when both
fetches fail (or either does): the `catch` only logs. -/
def repoLoadDataFailure (s : RepoPageState) : RepoPageState := s

/-- The state transition of `handleAddRepository` when `api.addRepository`
fails: the `catch` only logs and there is no `finally`. -/
def handleAddRepositoryFailure (s : RepoPageState) : RepoPageState := s

/-! ## i18n resolution (`i18n/I18nProvider.tsx`)

`MessageTree` is a nested string mapping; `resolveMessage` walks a dotted
key path through it; `formatMessage` substitutes `{{token}}` placeholders
(written with `\x7b`/`\x7d` escapes below) from a values map; `t` combines
the two with a fallback. -/

/-- The left-brace character. -/
def lbraceChar : Char := Char.ofNat 123

/-- The right-brace character. -/
def rbraceChar : Char := Char.ofNat 125

/-- The newline character, which `.` in the placeholder regular
expression `/\x7b\x7b(.*?)\x7d\x7d/g` does not match. -/
def newlineChar : Char := Char.ofNat 10

/-- Definition `MessageTree` from `I18nProvider.tsx`: a JSON-like tree whose leaves
are strings and whose nodes map keys to subtrees. -/
inductive MessageTree where
  | leaf (s : String) : MessageTree
  | node (entries : List (String × MessageTree)) : MessageTree

/-- Property lookup `acc[segment]` on a tree node's entry list. -/
def lookupEntry (entries : List (String × MessageTree)) (segment : String) :
    Option MessageTree :=
  (entries.find? (fun p => p.1 = segment)).map Prod.snd

/-- The `reduce` inside `resolveMessage`: walk the list of key segments,
returning `none` as soon as a segment is missing or a string is reached
with segments left over (`typeof acc === "string"` mid-path yields
`undefined` in the source). -/
def resolveSegments : MessageTree → List String → Option MessageTree
  | m, [] => some m
  | MessageTree.leaf _, _ :: _ => none
  | MessageTree.node es, seg :: rest =>
    match lookupEntry es seg with
    | none => none
    | some child => resolveSegments child rest

/-- Definition `resolveMessage` from `I18nProvider.tsx`: split the key on `"."` and
resolve segment by segment.  The source casts the result to
`string | undefined`; a key that resolves to an inner node therefore
escapes the type system, and is modelled as `none` here (the template is
not a string). -/
def resolveMessage (messages : MessageTree) (key : String) : Option String :=
  match resolveSegments messages (jsSplitOnDot key) with
  | some (MessageTree.leaf s) => some s
  | _ => none

/-- A value of the `values` interpolation map
(`Record<string, string | number>`); numbers are modelled as integers. -/
inductive TranslateValue where
  | str (s : String)
  | num (n : Int)
deriving DecidableEq, Repr

/-- Rendering `String(value)` of a `TranslateValue`. -/
def TranslateValue.render : TranslateValue → String
  | .str s => s
  | .num n => toString n

/-- Lookup `values[trimmed]` in the values map. -/
def lookupValue (values : List (String × TranslateValue)) (key : String) :
    Option TranslateValue :=
  (values.find? (fun p => p.1 = key)).map Prod.snd

/-- The replacement text for one matched placeholder whose raw token text
is `tok`: the token is trimmed, looked up in the values map, and rendered;
an absent token is replaced by the empty string. -/
def renderToken (values : List (String × TranslateValue)) (tok : List Char) : List Char :=
  match lookupValue values (jsTrim (String.mk tok)) with
  | some v => v.render.data
  | none => []

/-- Scan for the closing `\x7d\x7d` of a placeholder opened by
`\x7b\x7b`: returns the token text and the remainder after the first
closing pair, or `none` when a newline or the end of input is reached
first (the lazy `.*?` of the source's regular expression matches neither). -/
def grabToken : List Char → Option (List Char × List Char)
  | [] => none
  | [_] => none
  | c :: c2 :: rest =>
    if c = rbraceChar ∧ c2 = rbraceChar then some ([], rest)
    else if c = newlineChar then none
    else (grabToken (c2 :: rest)).map (fun p => (c :: p.1, p.2))

/-- The global-replace loop of `formatMessage`, with explicit fuel (one
unit per processed character suffices, see `interpGo_congr_fuel`).  On a
`\x7b\x7b` with a reachable closing pair the placeholder is replaced and
scanning resumes after it; otherwise the character is emitted unchanged
and scanning moves one character forward, exactly as the regular
expression engine does. -/
def interpGo (values : List (String × TranslateValue)) : Nat → List Char → List Char
  | 0, cs => cs
  | _ + 1, [] => []
  | _ + 1, [c] => [c]
  | fuel + 1, c :: c2 :: rest =>
    if c = lbraceChar ∧ c2 = lbraceChar then
      match grabToken rest with
      | some (tok, rem) => renderToken values tok ++ interpGo values fuel rem
      | none => c :: interpGo values fuel (c2 :: rest)
    else c :: interpGo values fuel (c2 :: rest)

/-- Placeholder interpolation over a character list. -/
def interpolateChars (values : List (String × TranslateValue)) (cs : List Char) : List Char :=
  interpGo values cs.length cs

/-- Definition `formatMessage` from `I18nProvider.tsx`: without a values map the
template is returned unchanged; with one, every `\x7b\x7btoken\x7d\x7d`
placeholder is substituted. -/
def formatMessage (template : String)
    (values : Option (List (String × TranslateValue))) : String :=
  match values with
  | none => template
  | some vs => String.mk (interpolateChars vs template.data)

/-- Definition `t` from `I18nProvider.tsx`: resolve the key in the message tree; a
missing key falls back to the caller-supplied fallback or the raw key;
the chosen template is then formatted.  The result is `none` exactly when
the key resolves to an inner node (the source's unchecked type cast). -/
def t (messages : MessageTree) (key : String)
    (values : Option (List (String × TranslateValue)))
    (fallback : Option String) : Option String :=
  match resolveSegments messages (jsSplitOnDot key) with
  | some (MessageTree.leaf s) => some (formatMessage s values)
  | some (MessageTree.node _) => none
  | none => some (formatMessage (fallback.getD key) values)

/-! ## Polling hook (`utils/hooks.ts`)

`usePolling(callback, intervalMs, enabled)` is modelled as a discrete
transition system.  Callbacks are identified by natural numbers.  A
render with the current props runs the two effects of the hook: the first
stores the latest callback in the `savedCallback` ref; the second, whose
dependencies are `[intervalMs, enabled]` (with `intervalMs` held fixed
here), re-runs exactly when `enabled` changed since the last run — it
clears any previous interval, and when enabled it registers a fresh
interval and invokes `tick` once immediately.  `window.setInterval`
registered at time `base` with period `m` fires at the times
`base + k * m`, `k ≥ 1`; the passage of `dt` milliseconds with no
intervening render delivers exactly the ticks in the elapsed window.
Effects are modelled as flushing with the render, before any later timer
event.  Each step returns the list of `(time, callback)` invocations it
performs. -/

/-- The mutable cells of one mounted `usePolling` instance, together with
the current time. -/
structure PollState where
  now : Nat
  savedCb : Nat
  running : Bool
  base : Nat
  lastDeps : Option Bool
deriving DecidableEq, Repr

/-- A freshly mounted hook instance at time zero: no effect has run yet. -/
def initPollState : PollState :=
  { now := 0, savedCb := 0, running := false, base := 0, lastDeps := none }

/-- A render of the component with props `(cb, enabled)` and the effect
flush that follows it. -/
def renderStep (cb : Nat) (enabled : Bool) (s : PollState) : PollState × List (Nat × Nat) :=
  let s1 := { s with savedCb := cb }
  if s1.lastDeps = some enabled then (s1, [])
  else if enabled then
    ({ s1 with running := true, base := s1.now, lastDeps := some enabled },
      [(s1.now, s1.savedCb)])
  else
    ({ s1 with running := false, lastDeps := some enabled }, [])

/-- The passage of `dt` milliseconds with no intervening render: an
active interval with period `m` delivers the ticks
`base + k * m ∈ (now, now + dt]`, each invoking the saved callback. -/
def elapseStep (m dt : Nat) (s : PollState) : PollState × List (Nat × Nat) :=
  let fires :=
    if s.running then
      let a := (s.now - s.base) / m
      let b := (s.now + dt - s.base) / m
      (List.range (b - a)).map (fun j => (s.base + (a + 1 + j) * m, s.savedCb))
    else []
  ({ s with now := s.now + dt }, fires)

/-- Unmounting the component runs the effect cleanup, clearing the
interval. -/
def unmountStep (s : PollState) : PollState × List (Nat × Nat) :=
  ({ s with running := false }, [])

/-! ## API client (`utils/api.ts`, interceptor variant)

The variant of `utils/api.ts` that the configuration page's
`api.updateChallenge` call requires is the one carrying a request
interceptor: it reads the locale preference from `localStorage` under
`LOCALE_STORAGE_KEY` and, when the stored value is truthy, writes it into
the request's `Accept-Language` header. -/

/-- Definition `LOCALE_STORAGE_KEY` from `i18n/settings.ts`. -/
def LOCALE_STORAGE_KEY : String := "code-evaluator.locale"

/-- Definition `SUPPORTED_LOCALES` from `i18n/settings.ts`; the `I18nProvider`
persists only these values under the locale key. -/
def SUPPORTED_LOCALES : List String := ["en", "pt"]

/-- An outgoing HTTP request as the interceptor sees it. -/
structure RequestConfig where
  method : String
  path : String
  headers : List (String × String)
deriving DecidableEq, Repr

/-- The default headers of the axios client instance. -/
def baseHeaders : List (String × String) := [("Content-Type", "application/json")]

/-- JavaScript property assignment `headers[k] = v`: overwrite an
existing key or append a new one. -/
def setHeader (headers : List (String × String)) (k v : String) :
    List (String × String) :=
  if headers.any (fun p => p.1 = k) then
    headers.map (fun p => if p.1 = k then (k, v) else p)
  else headers ++ [(k, v)]

/-- Header lookup. -/
def getHeader (headers : List (String × String)) (k : String) : Option String :=
  (headers.find? (fun p => p.1 = k)).map Prod.snd

/-- The request interceptor registered with
`client.interceptors.request.use`: `storedLocale` is
`window.localStorage.getItem(LOCALE_STORAGE_KEY)` (`none` when no value
is stored).  A truthy stored locale — any non-empty string — is written
into the `Accept-Language` header; otherwise the config passes through
unchanged. -/
def requestInterceptor (storedLocale : Option String) (config : RequestConfig) :
    RequestConfig :=
  match storedLocale with
  | none => config
  | some locale =>
    if locale = "" then config
    else { config with headers := setHeader config.headers "Accept-Language" locale }

/-- The operations of the `api` object, one per backend call. -/
inductive ApiOperation where
  | listChallenges
  | createChallenge
  | updateChallenge (challengeId : String)
  | addCriteria
  | listRepositories (challengeId : String)
  | addRepository
  | triggerEvaluation
  | getEvaluationStatus (challengeId : String)
  | getRanking (challengeId : String)
  | getEvaluationHistory (challengeId repositoryId : String)

/-- The request each `api` function hands to the axios client, before the
interceptor runs: its method, path, and the client's default headers. -/
def apiRequest : ApiOperation → RequestConfig
  | .listChallenges => { method := "GET", path := "/challenges", headers := baseHeaders }
  | .createChallenge => { method := "POST", path := "/challenges", headers := baseHeaders }
  | .updateChallenge cid =>
    { method := "PATCH", path := "/challenges/" ++ cid, headers := baseHeaders }
  | .addCriteria => { method := "POST", path := "/criteria", headers := baseHeaders }
  | .listRepositories cid =>
    { method := "GET", path := "/repositories/challenges/" ++ cid, headers := baseHeaders }
  | .addRepository => { method := "POST", path := "/repositories", headers := baseHeaders }
  | .triggerEvaluation =>
    { method := "POST", path := "/evaluations/trigger", headers := baseHeaders }
  | .getEvaluationStatus cid =>
    { method := "GET", path := "/evaluations/status/" ++ cid, headers := baseHeaders }
  | .getRanking cid =>
    { method := "GET", path := "/evaluations/rank/" ++ cid, headers := baseHeaders }
  | .getEvaluationHistory cid rid =>
    { method := "GET", path := "/evaluations/repository/" ++ cid ++ "/" ++ rid,
      headers := baseHeaders }

/-- The request actually sent for an operation: the interceptor applied
to the operation's request. -/
def sendRequest (storedLocale : Option String) (op : ApiOperation) : RequestConfig :=
  requestInterceptor storedLocale (apiRequest op)

/-! ## Ranking fetch (backend side)

Modelled from the spec: the backend ranking computation behind
`GET /evaluations/rank/{challengeId}` is not under `src/` (only its
frontend callers and types are).  Per the spec's data model, a
`RankEntry` is a derived, read-only snapshot per repository with a
nullable total score and an unscored flag, recomputed each poll, where a
repository with no scored evaluations yet has a null total score and is
flagged unscored. -/

/-- The per-repository evaluation data the ranking computation summarises:
identification plus the (possibly null) score of each of its
evaluations. -/
structure RepoEvaluationData where
  repository_id : String
  repository_name : String
  repository_url : String
  scores : List (Option Int)
deriving DecidableEq, Repr

/-- Modelled from the spec: the ranking computation's snapshot of one
repository.  The scored evaluations are summed into the total; a
repository with no scored evaluation has a null total and is flagged
unscored. -/
def mkRankEntry (r : RepoEvaluationData) : RankEntry :=
  let scored := r.scores.filterMap id
  { repository_id := r.repository_id
    repository_name := r.repository_name
    repository_url := r.repository_url
    total_score := if scored.isEmpty then none else some scored.sum
    status :=
      if r.scores.isEmpty then EvaluationState.not_evaluated
      else if scored.isEmpty then EvaluationState.under_evaluation
      else EvaluationState.evaluated
    unscored := scored.isEmpty }

/-- Modelled from the spec: the response of the ranking fetch for a
challenge, one entry per repository. -/
def fetchRanking (challengeId : String) (repos : List RepoEvaluationData)
    (generatedAt : String) : RankResponse :=
  { challenge_id := challengeId
    entries := repos.map mkRankEntry
    generated_at := generatedAt }

/-! ## Helper lemmas -/

lemma closeDraft_challengeForm (s : ConfigState) :
    (closeDraftCriteriaModal s).challengeForm = s.challengeForm := by
  simp only [closeDraftCriteriaModal]; split <;> rfl

lemma closeDraft_challenges (s : ConfigState) :
    (closeDraftCriteriaModal s).challenges = s.challenges := by
  simp only [closeDraftCriteriaModal]; split <;> rfl

lemma closeDraft_isDraftOpen (s : ConfigState) :
    (closeDraftCriteriaModal s).isDraftCriteriaModalOpen = false := by
  simp only [closeDraftCriteriaModal]; split <;> rfl

lemma closeDraft_draftIndex (s : ConfigState) :
    (closeDraftCriteriaModal s).draftCriteriaIndex = none := by
  simp only [closeDraftCriteriaModal]; split <;> rfl

lemma closeDraft_draftForm (s : ConfigState) :
    (closeDraftCriteriaModal s).draftCriteriaForm = createEmptyCriterion := by
  simp only [closeDraftCriteriaModal]; split <;> rfl

lemma closeDraft_shouldResume (s : ConfigState) :
    (closeDraftCriteriaModal s).shouldResumeChallengeModal = false := by
  simp only [closeDraftCriteriaModal]
  split <;> simp_all

/-- A successful detail fetch of `openEvaluationModal` with a selected
challenge: the selected repository, modal flag, loading flag and detail
list after the run. -/
lemma openEvaluationModalRun_ok (s : RankState) (r : String)
    (ds : List EvaluationDetail) (h : ¬ s.selectedChallengeId = "") :
    openEvaluationModalRun r (Except.ok ds) s =
      { s with selectedRepositoryId := r, isModalOpen := true, isLoading := false,
               evaluationDetails := ds } := by
  unfold openEvaluationModalRun openEvaluationModalStart openEvaluationModalSettle
  rw [if_neg h, if_neg h]

/-- The reachability invariant of the polling model: the interval is
active only when the last effect run saw `enabled = true`. -/
def pollInv (s : PollState) : Prop := s.running = true → s.lastDeps = some true

/-- A successful `grabToken` consumes at least the two closing brace
characters: the remainder is shorter by at least two. -/
lemma grabToken_length :
    ∀ (cs : List Char) {tok rem : List Char}, grabToken cs = some (tok, rem) →
      rem.length + 2 ≤ cs.length := by
  intro cs
  induction cs with
  | nil => intro tok rem h; simp [grabToken] at h
  | cons c rest ih =>
    intro tok rem h
    cases rest with
    | nil => simp [grabToken] at h
    | cons c2 rest2 =>
      simp only [grabToken] at h
      split at h
      · cases h
        simp
      · split at h
        · simp at h
        · obtain ⟨p, hp, hpe⟩ := Option.map_eq_some'.mp h
          cases hpe
          have := ih hp
          simp at this ⊢
          omega

/-- The interpolation loop is insensitive to its fuel as long as the fuel
covers the input length. -/
lemma interpGo_congr_fuel (vs : List (String × TranslateValue)) :
    ∀ (f g : Nat) (cs : List Char), cs.length ≤ f → cs.length ≤ g →
      interpGo vs f cs = interpGo vs g cs := by
  intro f
  induction f with
  | zero =>
    intro g cs hf hg
    have : cs = [] := List.length_eq_zero.mp (Nat.le_zero.mp hf)
    subst this
    cases g <;> simp [interpGo]
  | succ f ih =>
    intro g cs hf hg
    cases cs with
    | nil => cases g <;> simp [interpGo]
    | cons c rest =>
      cases rest with
      | nil =>
        cases g with
        | zero => simp at hg
        | succ g => simp [interpGo]
      | cons c2 rest2 =>
        cases g with
        | zero => simp at hg
        | succ g =>
          simp only [interpGo]
          split
          · cases hgt : grabToken rest2 with
            | none =>
              simp only [hgt]
              have h1 : (c2 :: rest2).length ≤ f := by simp at hf ⊢; omega
              have h2 : (c2 :: rest2).length ≤ g := by simp at hg ⊢; omega
              rw [ih g (c2 :: rest2) h1 h2]
            | some p =>
              simp only [hgt]
              have hlen := grabToken_length rest2 hgt
              have h1 : p.2.length ≤ f := by simp at hf; omega
              have h2 : p.2.length ≤ g := by simp at hg; omega
              rw [ih g p.2 h1 h2]
          · have h1 : (c2 :: rest2).length ≤ f := by simp at hf ⊢; omega
            have h2 : (c2 :: rest2).length ≤ g := by simp at hg ⊢; omega
            rw [ih g (c2 :: rest2) h1 h2]

/-- A token free of closing braces and newlines, followed by a closing
brace pair, is grabbed in full. -/
lemma grabToken_closes (tok suf : List Char)
    (htokr : rbraceChar ∉ tok) (htokn : newlineChar ∉ tok) :
    grabToken (tok ++ rbraceChar :: rbraceChar :: suf) = some (tok, suf) := by
  induction tok with
  | nil => simp [grabToken]
  | cons a rest ih =>
    have ha1 : ¬ a = rbraceChar := fun h => htokr (by simp [h])
    have ha2 : ¬ a = newlineChar := fun h => htokn (by simp [h])
    rcases hx : rest ++ rbraceChar :: rbraceChar :: suf with _ | ⟨b, tail⟩
    · exact absurd hx (by simp)
    · have hsh : a :: rest ++ rbraceChar :: rbraceChar :: suf = a :: b :: tail := by
        simp [hx]
      rw [hsh]
      simp only [grabToken, ha1, ha2, false_and, if_false, if_neg ha2]
      rw [← hx, ih (fun h => htokr (by simp [h])) (fun h => htokn (by simp [h]))]
      rfl

/-- A placeholder whose token is absent from the values map is replaced
by the empty string: interpolation erases it and continues after it. -/
lemma interp_placeholder_absent (vs : List (String × TranslateValue))
    (pre tok suf : List Char)
    (hpre : lbraceChar ∉ pre) (htokr : rbraceChar ∉ tok) (htokn : newlineChar ∉ tok)
    (habs : lookupValue vs (jsTrim (String.mk tok)) = none) :
    interpolateChars vs
        (pre ++ lbraceChar :: lbraceChar :: (tok ++ rbraceChar :: rbraceChar :: suf))
      = pre ++ interpolateChars vs suf := by
  induction pre with
  | nil =>
    simp only [List.nil_append, interpolateChars, List.length_cons]
    simp only [interpGo, and_self, if_true, if_pos rfl]
    rw [grabToken_closes tok suf htokr htokn]
    simp only [renderToken, habs, List.nil_append]
    have hle : suf.length ≤ (tok ++ rbraceChar :: rbraceChar :: suf).length + 1 := by
      simp; omega
    rw [interpGo_congr_fuel vs _ suf.length suf hle (le_refl _)]
  | cons c pre2 ih =>
    have hc : ¬ c = lbraceChar := fun h => hpre (by simp [h])
    have hpre2 : lbraceChar ∉ pre2 := fun h => hpre (by simp [h])
    rcases hx : pre2 ++ lbraceChar :: lbraceChar :: (tok ++ rbraceChar :: rbraceChar :: suf)
      with _ | ⟨b, tail⟩
    · exact absurd hx (by simp)
    · have hshape : (c :: pre2) ++ lbraceChar :: lbraceChar ::
          (tok ++ rbraceChar :: rbraceChar :: suf) = c :: b :: tail := by
        simp [hx]
      rw [hshape]
      simp only [interpolateChars, List.length_cons]
      simp only [interpGo, hc, false_and, if_false]
      have hfg : interpGo vs (tail.length + 1) (b :: tail)
          = interpolateChars vs (b :: tail) := by
        simp [interpolateChars]
      rw [hfg, ← hx, ih hpre2]
      simp [interpolateChars]

/-- Key-path resolution is segment by segment: resolving a concatenated
path is resolving the first part, then resolving the second part from
wherever it landed. -/
lemma resolveSegments_append (tree : MessageTree) (segs1 segs2 : List String) :
    resolveSegments tree (segs1 ++ segs2)
      = (resolveSegments tree segs1).bind (fun m => resolveSegments m segs2) := by
  induction segs1 generalizing tree with
  | nil => cases tree <;> simp [resolveSegments]
  | cons seg rest ih =>
    cases tree with
    | leaf s => rfl
    | node es =>
      simp only [List.cons_append, resolveSegments]
      cases h : lookupEntry es seg with
      | none => rfl
      | some child => exact ih child

/-! ## Claim theorems -/

/-- C1: for any sequence of draft-editor operations
(`openDraftModalWithState`, `openNewDraftCriterion`, `openDraftCriterion`,
`closeDraftCriteriaModal`) starting from any reachable state of the
configuration page, the challenge modal's visibility after the draft
editor closes equals its visibility immediately before the draft editor
was (last) opened.  The state reached by any prefix of operations from
any start state covers every reachable state. -/
theorem claim_c1_draft_close_restores_challenge_modal
    (s0 : ConfigState) (pre : List DraftModalOp) (op : DraftModalOp)
    (hop : op.isOpenOp = true) :
    (closeDraftCriteriaModal
        (applyDraftModalOp op (runDraftModalOps s0 pre))).isChallengeModalOpen
      = (runDraftModalOps s0 pre).isChallengeModalOpen := by
  set s := runDraftModalOps s0 pre with hs
  cases op with
  | close => simp [DraftModalOp.isOpenOp] at hop
  | openWith i f =>
    cases h : s.isChallengeModalOpen <;>
      simp [applyDraftModalOp, openDraftModalWithState, closeDraftCriteriaModal, h]
  | openNew =>
    cases h : s.isChallengeModalOpen <;>
      simp [applyDraftModalOp, openNewDraftCriterion, openDraftModalWithState,
        closeDraftCriteriaModal, h]
  | openExisting i =>
    cases h : s.isChallengeModalOpen <;>
      simp [applyDraftModalOp, openDraftCriterion, openDraftModalWithState,
        closeDraftCriteriaModal, h]

/-- Witness for C1: opening the draft editor from the fresh configuration
page and closing it leaves the challenge modal as it was. -/
theorem claim_c1_witness :
    DraftModalOp.isOpenOp DraftModalOp.openNew = true ∧
    (closeDraftCriteriaModal (applyDraftModalOp DraftModalOp.openNew
        (runDraftModalOps initConfigState []))).isChallengeModalOpen
      = (runDraftModalOps initConfigState []).isChallengeModalOpen :=
  ⟨rfl, claim_c1_draft_close_restores_challenge_modal initConfigState [] DraftModalOp.openNew rfl⟩

/-- A configuration-page state with the draft editor open on a new
(blank-named) draft over an empty criteria list. -/
def blankDraftSaveState : ConfigState :=
  { initConfigState with isDraftCriteriaModalOpen := true }

/-- Counterexample to C2 as stated: invoking `handleSaveDraftCriterion`
with `draftCriteriaIndex = none` on a draft whose name is blank leaves
the criteria list length unchanged (it does not grow by one) and leaves
the draft editor open: the handler returns early on a trimmed-empty
name. -/
theorem claim_c2_counterexample :
    ¬ (((handleSaveDraftCriterion blankDraftSaveState).challengeForm.criteria.length
          = blankDraftSaveState.challengeForm.criteria.length + 1)
        ∧ (handleSaveDraftCriterion blankDraftSaveState).isDraftCriteriaModalOpen = false) := by
  decide

/-- C2 (amended): provided the draft's trimmed name is non-empty (the
editor's save button is disabled otherwise), saving with
`draftCriteriaIndex = none` appends the draft (so the length grows by
exactly one), saving with a valid index `i` keeps the length, replaces
exactly the entry at `i` and no other, and in both cases the draft editor
is closed afterwards. -/
theorem claim_c2_amended_save_draft (s : ConfigState)
    (h : ¬ jsTrim s.draftCriteriaForm.name = "") :
    (s.draftCriteriaIndex = none →
        (handleSaveDraftCriterion s).challengeForm.criteria
          = s.challengeForm.criteria ++ [s.draftCriteriaForm])
      ∧ (∀ i, s.draftCriteriaIndex = some i → i < s.challengeForm.criteria.length →
          (handleSaveDraftCriterion s).challengeForm.criteria.length
            = s.challengeForm.criteria.length
          ∧ (handleSaveDraftCriterion s).challengeForm.criteria.get? i
              = some s.draftCriteriaForm
          ∧ ∀ j, j ≠ i →
              (handleSaveDraftCriterion s).challengeForm.criteria.get? j
                = s.challengeForm.criteria.get? j)
      ∧ (handleSaveDraftCriterion s).isDraftCriteriaModalOpen = false := by
  unfold handleSaveDraftCriterion
  rw [if_neg h]
  refine ⟨?_, ?_, ?_⟩
  · intro hidx
    rw [hidx, closeDraft_challengeForm]
  · intro i hidx hlt
    rw [hidx, closeDraft_challengeForm]
    refine ⟨by simp, ?_, ?_⟩
    · simp [List.getElem?_set_self', List.getElem?_eq_getElem hlt]
    · intro j hj
      simp only [List.get?_eq_getElem?]
      exact List.getElem?_set_ne (fun hij => hj hij.symm)
  · exact closeDraft_isDraftOpen _

/-- A configuration-page state editing the first of two draft criteria
with a non-blank draft name. -/
def editDraftSaveState : ConfigState :=
  { initConfigState with
    isDraftCriteriaModalOpen := true
    draftCriteriaIndex := some 0
    draftCriteriaForm :=
      { name := "Style", description := "d", score_multiplier := 2, code_concept := "k" }
    challengeForm :=
      { emptyChallengeForm with criteria := [createEmptyCriterion, createEmptyCriterion] } }

/-- Witness for the amended C2: saving the non-blank draft at index 0 of
a two-entry list keeps the length at two, replaces entry 0, leaves entry
1 alone, and closes the editor. -/
theorem claim_c2_witness :
    (handleSaveDraftCriterion editDraftSaveState).challengeForm.criteria.length = 2
    ∧ (handleSaveDraftCriterion editDraftSaveState).challengeForm.criteria.get? 0
        = some editDraftSaveState.draftCriteriaForm
    ∧ (handleSaveDraftCriterion editDraftSaveState).challengeForm.criteria.get? 1
        = editDraftSaveState.challengeForm.criteria.get? 1
    ∧ (handleSaveDraftCriterion editDraftSaveState).isDraftCriteriaModalOpen = false := by
  have h := claim_c2_amended_save_draft editDraftSaveState (by decide)
  have parts := h.2.1 0 rfl (by decide)
  exact ⟨parts.1.trans (by decide), parts.2.1, parts.2.2 1 (by decide), h.2.2⟩

/-- C4: with a non-empty (trimmed) challenge name, submitting the form
sends exactly the criteria whose trimmed names are non-empty, and on
success the returned challenge is appended to the local list while every
transient form/modal cell returns to its initial value. -/
theorem claim_c4_create_challenge (s : ConfigState) (created : Challenge)
    (h : ¬ jsTrim s.challengeForm.name = "") :
    (∃ payload, handleCreateChallengeRequest s = some payload
      ∧ payload.criteria = s.challengeForm.criteria.filter (fun c => ¬ jsTrim c.name = "")
      ∧ (∀ c, c ∈ payload.criteria ↔ (c ∈ s.challengeForm.criteria ∧ ¬ jsTrim c.name = "")))
    ∧ (handleCreateChallengeSuccess created s).challenges = s.challenges ++ [created]
    ∧ (handleCreateChallengeSuccess created s).isChallengeModalOpen = false
    ∧ (handleCreateChallengeSuccess created s).isDraftCriteriaModalOpen = false
    ∧ (handleCreateChallengeSuccess created s).draftCriteriaIndex = none
    ∧ (handleCreateChallengeSuccess created s).draftCriteriaForm = createEmptyCriterion
    ∧ (handleCreateChallengeSuccess created s).shouldResumeChallengeModal = false
    ∧ (handleCreateChallengeSuccess created s).challengeForm = emptyChallengeForm
    ∧ (handleCreateChallengeSuccess created s).loading = false := by
  unfold handleCreateChallengeRequest handleCreateChallengeSuccess
  rw [if_neg h, if_neg h]
  refine ⟨⟨_, rfl, rfl, ?_⟩, ?_, rfl, ?_, ?_, ?_, ?_, rfl, rfl⟩
  · intro c
    simp [List.mem_filter]
  · simp [closeDraft_challenges]
  · exact closeDraft_isDraftOpen _
  · exact closeDraft_draftIndex _
  · exact closeDraft_draftForm _
  · exact closeDraft_shouldResume _

/-- A challenge form holding one blank-named and one non-blank criterion,
as in the claim's example. -/
def styleFormState : ConfigState :=
  { initConfigState with
    isChallengeModalOpen := true
    challengeForm :=
      { emptyChallengeForm with
        name := "Clean code"
        criteria :=
          [createEmptyCriterion,
           { name := "Style", description := "", score_multiplier := 1, code_concept := "" }] } }

/-- Witness for C4: submitting a form with criteria named `""` and
`"Style"` sends exactly one criterion, named `"Style"`, and a successful
response is appended while the form resets. -/
theorem claim_c4_witness :
    (∃ payload, handleCreateChallengeRequest styleFormState = some payload
      ∧ payload.criteria.map CriterionDraft.name = ["Style"])
    ∧ (handleCreateChallengeSuccess
          { id := "c9", name := "Clean code", description := "",
            expected_outcome := "", created_at := "t", criteria := [],
            active := true } styleFormState).challengeForm = emptyChallengeForm := by
  have h := claim_c4_create_challenge styleFormState
    { id := "c9", name := "Clean code", description := "", expected_outcome := "",
      created_at := "t", criteria := [], active := true } (by decide)
  obtain ⟨⟨payload, hreq, hcrit, -⟩, -, -, -, -, -, -, hform, -⟩ := h
  refine ⟨⟨payload, hreq, ?_⟩, hform⟩
  rw [hcrit]
  decide

/-- C9: every failing API call is caught at its call site; the home page
surfaces the generic message while every other handler swallows the
failure, and in each case the previously rendered data state (challenge
lists, form contents, rank entries, evaluation details, repositories)
is left unchanged, only loading/error flags moving. -/
theorem claim_c9_failures_preserve_state (hs : HomeState) (cs : ConfigState)
    (rs : RankState) (ps : RepoPageState) (repoId : String) :
    ((fetchChallengesFailure hs).challenges = hs.challenges
      ∧ (fetchChallengesFailure hs).selectedId = hs.selectedId
      ∧ (fetchChallengesFailure hs).error = some homeGenericErrorMessage)
    ∧ configListChallengesFailure cs = cs
    ∧ ((handleCreateChallengeFailure cs).challenges = cs.challenges
      ∧ (handleCreateChallengeFailure cs).challengeForm = cs.challengeForm
      ∧ (handleCreateChallengeFailure cs).draftCriteriaForm = cs.draftCriteriaForm
      ∧ (handleCreateChallengeFailure cs).criteriaDraft = cs.criteriaDraft)
    ∧ ((handleToggleChallengeActiveFailure cs).challenges = cs.challenges
      ∧ (handleToggleChallengeActiveFailure cs).challengeForm = cs.challengeForm)
    ∧ ((handleAddCriteriaFailure cs).challenges = cs.challenges
      ∧ (handleAddCriteriaFailure cs).criteriaDraft = cs.criteriaDraft)
    ∧ rankListChallengesFailure rs = rs
    ∧ getRankingPollFailure rs = rs
    ∧ ((openEvaluationModalRun repoId (Except.error ()) rs).rankEntries = rs.rankEntries
      ∧ (openEvaluationModalRun repoId (Except.error ()) rs).evaluationDetails
          = rs.evaluationDetails
      ∧ (openEvaluationModalRun repoId (Except.error ()) rs).challenges = rs.challenges)
    ∧ repoLoadDataFailure ps = ps
    ∧ handleAddRepositoryFailure ps = ps := by
  refine ⟨⟨rfl, rfl, rfl⟩, rfl, ?_, ⟨rfl, rfl⟩, ?_, rfl, rfl, ?_, rfl, rfl⟩
  · unfold handleCreateChallengeFailure
    split <;> simp
  · unfold handleAddCriteriaFailure
    rcases cs.selectedChallenge with _ | sel <;> simp
    split <;> simp
  · unfold openEvaluationModalRun openEvaluationModalSettle openEvaluationModalStart
    split <;> simp

/-- C10: a successful toggle maps the challenge list pointwise — the
entry at any position whose `id` matches the toggled challenge keeps all
its fields except `active`, which takes the server response's value, and
every entry whose `id` differs is untouched; the list length is
preserved, and a failed toggle leaves the list entirely unchanged. -/
theorem claim_c10_toggle_frame (s : ConfigState) (challenge updated : Challenge) :
    ((handleToggleChallengeActiveSuccess challenge updated s).challenges.length
        = s.challenges.length)
    ∧ (∀ j item, s.challenges.get? j = some item →
        (item.id = challenge.id →
          (handleToggleChallengeActiveSuccess challenge updated s).challenges.get? j
            = some { item with active := updated.active })
        ∧ (item.id ≠ challenge.id →
          (handleToggleChallengeActiveSuccess challenge updated s).challenges.get? j
            = some item))
    ∧ (handleToggleChallengeActiveFailure s).challenges = s.challenges := by
  refine ⟨by simp [handleToggleChallengeActiveSuccess], ?_, rfl⟩
  intro j item hj
  have hj2 : s.challenges[j]? = some item := by rw [← List.get?_eq_getElem?]; exact hj
  constructor <;> intro hid <;>
    simp [handleToggleChallengeActiveSuccess, List.get?_eq_getElem?, List.getElem?_map,
      hj2, hid]

/-- A two-challenge list used to witness the toggle frame property. -/
def toggleChallengesState : ConfigState :=
  { initConfigState with
    challenges :=
      [{ id := "a", name := "A", description := "", expected_outcome := "",
         created_at := "t", criteria := [], active := false },
       { id := "b", name := "B", description := "", expected_outcome := "",
         created_at := "t", criteria := [], active := false }] }

/-- Witness for C10: toggling challenge `"a"` to active flips entry 0 and
leaves entry 1 untouched. -/
theorem claim_c10_witness :
    (handleToggleChallengeActiveSuccess
        { id := "a", name := "A", description := "", expected_outcome := "",
          created_at := "t", criteria := [], active := false }
        { id := "a", name := "A", description := "", expected_outcome := "",
          created_at := "t", criteria := [], active := true }
        toggleChallengesState).challenges.get? 1
      = toggleChallengesState.challenges.get? 1 := by
  have h := claim_c10_toggle_frame toggleChallengesState
    { id := "a", name := "A", description := "", expected_outcome := "",
      created_at := "t", criteria := [], active := false }
    { id := "a", name := "A", description := "", expected_outcome := "",
      created_at := "t", criteria := [], active := true }
  have h1 := (h.2.1 1
    { id := "b", name := "B", description := "", expected_outcome := "",
      created_at := "t", criteria := [], active := false } (by decide)).2 (by decide)
  rw [h1]
  decide

/-- C6: every rank entry produced by the (spec-modelled) ranking fetch
and stored by the rank page's polling callback has `unscored = true`
exactly when its `total_score` is null. -/
theorem claim_c6_unscored_iff_null_score (s : RankState) (cid genAt : String)
    (repos : List RepoEvaluationData) (hsel : ¬ s.selectedChallengeId = "") :
    ∀ e ∈ (getRankingPollSuccess (fetchRanking cid repos genAt) s).rankEntries,
      (e.unscored = true ↔ e.total_score = none) := by
  intro e he
  unfold getRankingPollSuccess at he
  rw [if_neg hsel] at he
  simp only [fetchRanking, List.mem_map] at he
  obtain ⟨r, hr, rfl⟩ := he
  unfold mkRankEntry
  cases h : (r.scores.filterMap id).isEmpty <;> simp [h]

/-- Evaluation data of a repository with one scored and one pending
criterion. -/
def scoredRepoData : RepoEvaluationData :=
  { repository_id := "r1", repository_name := "repo-one",
    repository_url := "u1", scores := [some 3, none] }

/-- Evaluation data of a repository with no scored criterion. -/
def unscoredRepoData : RepoEvaluationData :=
  { repository_id := "r2", repository_name := "repo-two",
    repository_url := "u2", scores := [none] }

/-- A rank page with a selected challenge. -/
def selectedRankState : RankState := { initRankState with selectedChallengeId := "c1" }

/-- Witness for C6: both the scored and the unscored repository's entries
satisfy the equivalence after the poll stores them. -/
theorem claim_c6_witness :
    ((mkRankEntry scoredRepoData).unscored = true
        ↔ (mkRankEntry scoredRepoData).total_score = none)
    ∧ ((mkRankEntry unscoredRepoData).unscored = true
        ↔ (mkRankEntry unscoredRepoData).total_score = none) :=
  ⟨claim_c6_unscored_iff_null_score selectedRankState "c1" "now"
      [scoredRepoData, unscoredRepoData] (by decide) (mkRankEntry scoredRepoData) (by decide),
   claim_c6_unscored_iff_null_score selectedRankState "c1" "now"
      [scoredRepoData, unscoredRepoData] (by decide) (mkRankEntry unscoredRepoData) (by decide)⟩

/-- C7: for every API-client operation, when a locale the provider can
have stored is present under the locale key, the outgoing request's
`Accept-Language` header equals that locale; with nothing stored, no such
header is attached. -/
theorem claim_c7_accept_language_header (op : ApiOperation) (locale : String)
    (hloc : locale ∈ SUPPORTED_LOCALES) :
    getHeader (sendRequest (some locale) op).headers "Accept-Language" = some locale
    ∧ getHeader (sendRequest none op).headers "Accept-Language" = none := by
  have hne : ¬ locale = "" := by
    simp only [SUPPORTED_LOCALES, List.mem_cons, List.mem_singleton] at hloc
    rcases hloc with rfl | rfl | h
    · decide
    · decide
    · exact absurd h (List.not_mem_nil _)
  constructor
  · cases op <;>
      simp [sendRequest, requestInterceptor, hne, apiRequest, baseHeaders, setHeader,
        getHeader]
  · cases op <;> rfl

/-- Witness for C7: fetching the ranking with stored locale `"pt"`
carries `Accept-Language: pt`; with no stored locale the header is
absent. -/
theorem claim_c7_witness :
    getHeader (sendRequest (some "pt") (ApiOperation.getRanking "c1")).headers
        "Accept-Language" = some "pt"
    ∧ getHeader (sendRequest none (ApiOperation.getRanking "c1")).headers
        "Accept-Language" = none :=
  claim_c7_accept_language_header (ApiOperation.getRanking "c1") "pt" (by decide)

/-- An evaluation detail belonging to repository `"A"`. -/
def detailOfRepoA : EvaluationDetail :=
  { id := "e1", challenge_id := "c1", repository_id := "A", criteria_id := "cr1",
    criteria_name := "Quality", score := some 5, state := EvaluationState.evaluated,
    reasoning := none, suggestion := none, updated_at := "t1" }

/-- The rank page after selecting repository `"A"` (fetch succeeds with
`detailOfRepoA`) and then repository `"B"` (fetch fails). -/
def staleDetailState : RankState :=
  openEvaluationModalRun "B" (Except.error ())
    (openEvaluationModalRun "A" (Except.ok [detailOfRepoA]) selectedRankState)

/-- Counterexample to C8 as stated: after selecting repository `"A"`
(whose fetch succeeds) and then repository `"B"` (whose fetch fails), the
modal is open and not loading for `"B"`, yet the displayed detail list
still holds a detail fetched for the previously selected repository
`"A"`. -/
theorem claim_c8_counterexample :
    staleDetailState.selectedRepositoryId = "B"
    ∧ staleDetailState.isModalOpen = true
    ∧ staleDetailState.isLoading = false
    ∧ ∃ d ∈ staleDetailState.evaluationDetails, d.repository_id ≠ "B" := by
  decide

/-- C8 (amended): for every sequence of repository selections each of
whose fetches completes successfully (returning details of the selected
repository) before the next selection, the detail list displayed at the
end contains only details of the repository selected last. -/
theorem claim_c8_amended_details_match_selection (s : RankState)
    (sels : List (String × List EvaluationDetail))
    (hsel : ¬ s.selectedChallengeId = "") (hne : sels ≠ [])
    (hfetch : ∀ p ∈ sels, ∀ d ∈ p.2, d.repository_id = p.1) :
    ∀ d ∈ (runSelections s sels).evaluationDetails,
      d.repository_id = (runSelections s sels).selectedRepositoryId := by
  induction sels generalizing s with
  | nil => exact absurd rfl hne
  | cons p rest ih =>
    have hstep : runSelections s (p :: rest)
        = runSelections (openEvaluationModalRun p.1 (Except.ok p.2) s) rest := rfl
    rw [hstep, openEvaluationModalRun_ok s p.1 p.2 hsel]
    rcases rest with _ | ⟨q, rest2⟩
    · intro d hd
      exact hfetch p (by simp) d hd
    · exact ih _ (by simpa using hsel) (by simp)
        (fun q hq => hfetch q (List.mem_cons_of_mem p hq))

/-- The same detail keyed to repository `"B"`. -/
def detailOfRepoB : EvaluationDetail := { detailOfRepoA with id := "e2", repository_id := "B" }

/-- Witness for the amended C8: selecting `"A"` then `"B"`, both fetches
succeeding, every displayed detail belongs to `"B"`, the repository
selected last. -/
theorem claim_c8_witness :
    detailOfRepoB.repository_id
      = (runSelections selectedRankState
          [("A", [detailOfRepoA]), ("B", [detailOfRepoB])]).selectedRepositoryId :=
  claim_c8_amended_details_match_selection selectedRankState
    [("A", [detailOfRepoA]), ("B", [detailOfRepoB])]
    (by decide) (by decide) (by decide) detailOfRepoB (by decide)

/-- C3: in the polling model with period `m > 0`, (1) a render that turns
the hook enabled (including mount) invokes the freshly supplied callback
exactly once, immediately; (2) a render while already enabled invokes
nothing; (3) a render with the hook disabled invokes nothing; (4) while
the interval is active, the passage of `n` periods delivers exactly `n`
invocations; (5) with no active interval no time passage invokes
anything; (6) the same after an unmount; (7) on a reachable state
(satisfying `pollInv`), rendering disabled deactivates the interval;
(8) `pollInv` holds initially and is preserved by every step; (9) every
timer invocation calls the saved callback; (10) a render saves the latest
callback. -/
theorem claim_c3_polling_contract (m : Nat) (hm : 0 < m) (cb : Nat) (en : Bool)
    (s : PollState) (dt n : Nat) :
    (s.lastDeps ≠ some true → (renderStep cb true s).2 = [(s.now, cb)])
    ∧ (s.lastDeps = some true → (renderStep cb true s).2 = [])
    ∧ ((renderStep cb false s).2 = [])
    ∧ (s.running = true → s.base ≤ s.now → (elapseStep m (n * m) s).2.length = n)
    ∧ (s.running = false → (elapseStep m dt s).2 = [])
    ∧ ((elapseStep m dt (unmountStep s).1).2 = [])
    ∧ (pollInv s → (renderStep cb false s).1.running = false)
    ∧ (pollInv initPollState ∧ (pollInv s →
        pollInv (renderStep cb en s).1 ∧ pollInv (elapseStep m dt s).1
          ∧ pollInv (unmountStep s).1))
    ∧ (∀ e ∈ (elapseStep m dt s).2, e.2 = s.savedCb)
    ∧ ((renderStep cb en s).1.savedCb = cb) := by
  refine ⟨?_, ?_, ?_, ?_, ?_, ?_, ?_, ?_, ?_, ?_⟩
  · intro h
    simp [renderStep, h]
  · intro h
    simp [renderStep, h]
  · by_cases h : s.lastDeps = some false <;> simp [renderStep, h]
  · intro hrun hbase
    simp only [elapseStep, hrun, if_true, List.length_map, List.length_range]
    have h1 : s.now + n * m - s.base = (s.now - s.base) + n * m := by omega
    rw [h1, Nat.add_mul_div_right _ _ hm]
    omega
  · intro hrun
    simp [elapseStep, hrun]
  · simp [elapseStep, unmountStep]
  · intro hinv
    by_cases h : s.lastDeps = some false
    · have hrf : s.running = false := by
        cases hr : s.running
        · rfl
        · rw [hinv hr] at h
          simp at h
      simp [renderStep, h, hrf]
    · simp [renderStep, h]
  · refine ⟨fun h => by simp [initPollState] at h, fun hinv => ⟨?_, ?_, ?_⟩⟩
    · by_cases h : s.lastDeps = some en
      · intro hr
        simp only [renderStep, h] at hr ⊢
        simp_all [pollInv]
      · cases en <;> simp [renderStep, h, pollInv]
    · intro hr
      simp only [elapseStep] at hr
      exact hinv hr
    · intro hr
      simp [unmountStep] at hr
  · intro e he
    unfold elapseStep at he
    by_cases hrun : s.running
    · simp only [hrun, if_true] at he
      simp only [List.mem_map, List.mem_range] at he
      obtain ⟨j, _, rfl⟩ := he
      rfl
    · simp [hrun] at he
  · by_cases h : s.lastDeps = some en <;> cases en <;> simp [renderStep, h]

/-- The polling model right after mounting enabled with callback 7. -/
def mountedPollState : PollState := (renderStep 7 true initPollState).1

/-- Witness for C3, at period 5000: mounting enabled invokes callback 7
once at time 0; three elapsed periods deliver exactly three invocations;
a disabled instance delivers none; re-rendering with callback 9 saves
it. -/
theorem claim_c3_witness :
    (renderStep 7 true initPollState).2 = [(0, 7)]
    ∧ (elapseStep 5000 (3 * 5000) mountedPollState).2.length = 3
    ∧ (elapseStep 5000 123 initPollState).2 = []
    ∧ (renderStep 9 true mountedPollState).1.savedCb = 9 := by
  have h0 := claim_c3_polling_contract 5000 (by decide) 7 true initPollState 123 3
  have h1 := claim_c3_polling_contract 5000 (by decide) 7 true mountedPollState 123 3
  have h2 := claim_c3_polling_contract 5000 (by decide) 9 true mountedPollState 123 3
  exact ⟨h0.1 (by decide), h1.2.2.2.1 (by decide) (by decide),
    h0.2.2.2.2.1 (by decide), h2.2.2.2.2.2.2.2.2.2⟩

/-- The nested mapping of the claim's example, with the braces of the
placeholder written as character escapes. -/
def exampleMessages : MessageTree :=
  MessageTree.node [("a", MessageTree.node [("b", MessageTree.leaf "X \x7b\x7bn\x7d\x7d")])]

/-- C5: (1) key resolution proceeds segment by segment — resolving a
concatenated segment path factors through the intermediate subtree;
(2) on the mapping of the example, `t` applied to key `"a.b"` with
values mapping `n` to the number 5 yields `"X 5"`; (3) whenever the
dotted key resolves to nothing and no fallback is supplied, `t` returns
the raw key itself; (4) every placeholder whose (trimmed) token is absent
from a supplied values map is replaced by the empty string. -/
theorem claim_c5_i18n_lookup :
    (∀ (tree : MessageTree) (segs1 segs2 : List String),
        resolveSegments tree (segs1 ++ segs2)
          = (resolveSegments tree segs1).bind (fun m => resolveSegments m segs2))
    ∧ (t exampleMessages "a.b" (some [("n", TranslateValue.num 5)]) none = some "X 5")
    ∧ (∀ (tree : MessageTree) (key : String),
        resolveSegments tree (jsSplitOnDot key) = none →
          t tree key none none = some key)
    ∧ (∀ (vs : List (String × TranslateValue)) (pre tok suf : List Char),
        lbraceChar ∉ pre → rbraceChar ∉ tok → newlineChar ∉ tok →
        lookupValue vs (jsTrim (String.mk tok)) = none →
        formatMessage (String.mk (pre ++ lbraceChar :: lbraceChar ::
            (tok ++ rbraceChar :: rbraceChar :: suf))) (some vs)
          = String.mk (pre ++ interpolateChars vs suf)) := by
  refine ⟨resolveSegments_append, by decide, ?_, ?_⟩
  · intro tree key h
    unfold t
    rw [h]
    rfl
  · intro vs pre tok suf hpre htokr htokn habs
    show String.mk (interpolateChars vs
        (pre ++ lbraceChar :: lbraceChar :: (tok ++ rbraceChar :: rbraceChar :: suf)))
      = String.mk (pre ++ interpolateChars vs suf)
    rw [interp_placeholder_absent vs pre tok suf hpre htokr htokn habs]

/-- Witness for C5: segmentwise resolution on the example mapping, the
raw-key fallback for `"missing.key"` on an empty mapping, and the erasure
of the absent-token placeholder in `"X \x7b\x7bn\x7d\x7d"` under an empty
values map. -/
theorem claim_c5_witness :
    resolveSegments exampleMessages (["a"] ++ ["b"])
        = (resolveSegments exampleMessages ["a"]).bind
            (fun m => resolveSegments m ["b"])
    ∧ t (MessageTree.node []) "missing.key" none none = some "missing.key"
    ∧ formatMessage (String.mk ("X ".data ++ lbraceChar :: lbraceChar ::
          ("n".data ++ rbraceChar :: rbraceChar :: "".data))) (some [])
        = String.mk ("X ".data ++ interpolateChars [] "".data) :=
  ⟨claim_c5_i18n_lookup.1 exampleMessages ["a"] ["b"],
   claim_c5_i18n_lookup.2.2.1 (MessageTree.node []) "missing.key" rfl,
   claim_c5_i18n_lookup.2.2.2 [] "X ".data "n".data "".data
     (by decide) (by decide) (by decide) (by decide)⟩

end CodeEvaluator
